import Mathlib

/-!
# Verification of the GreenerDemo assignment/CRM core (src/server.js)

Shallow embedding of the decision logic of `src/server.js`:
the worker/site scoring functions (`calculateSkillMatch`,
`calculateAssignmentScore`), the ranking endpoint
(`GET /api/ai/recommend/:siteId`), the assignment endpoint
(`POST /api/assign`), and the CRM invoice operations
(`RealGreenCRM.generateInvoice`, `POST /api/crm/invoice`).

Modelling conventions:
* JavaScript numbers are modelled as `ℚ` (the source only performs
  field arithmetic on decimal literals in the embedded fragments).
* Timestamps are milliseconds since the epoch as `ℕ`; an operation
  reads the clock once, passed in as a `now` parameter
  (`new Date()` / `Date.now()` within one synchronous handler body
  denote that instant).
* Statuses are the literal strings the source stores.
* The haversine `calculateDistance` is real-valued trigonometry; the
  embedded scoring takes its (nonnegative) result as an explicit
  `distance` argument, and claims about scores are proved for every
  `distance ≥ 0`.
* Record fields never read nor written by the embedded operations are
  omitted from the structures.
-/

/-- A latitude/longitude pair, e.g. `{ lat: 40.8000, lng: -81.4000 }`. -/
structure Coords where
  lat : ℚ
  lng : ℚ
deriving DecidableEq, Repr

/-- A worker record from the `workers` array (fields used by the embedded
operations: `id`, `skills`, `rating`, `active_assignment_ids`). -/
structure Worker where
  id : String
  skills : List String
  rating : ℚ
  active_assignment_ids : List String
deriving DecidableEq, Repr

/-- A site record from the `workSites` array (fields used by the embedded
operations: `id`, `status`, `preferred_skills`). -/
structure WorkSite where
  id : String
  status : String
  preferred_skills : List String
deriving DecidableEq, Repr

/-- An assignment record as built by `POST /api/assign`:
`{ id, workerId, siteId, assignedAt, status }`. -/
structure Assignment where
  id : String
  workerId : String
  siteId : String
  assignedAt : ℕ
  status : String
deriving DecidableEq, Repr

/-- A customer record from the `customers` array (only `id` is read by the
embedded invoice route). -/
structure Customer where
  id : String
deriving DecidableEq, Repr

/-- An invoice record as built by `RealGreenCRM.generateInvoice`. -/
structure Invoice where
  id : String
  customer_id : String
  amount : ℚ
  services : List String
  status : String
  created_at : ℕ
  due_date : ℕ
  payment_method : Option String
deriving DecidableEq, Repr

/-- A service ticket as built by `RealGreenCRM.createServiceTicket`
(fields used by the lifecycle: `id`, `customer_id`, `status`). -/
structure Ticket where
  id : String
  customer_id : String
  status : String
deriving DecidableEq, Repr

/-- Replace the first element satisfying `p` by its image under `f`:
the effect of `array.find(p)` followed by in-place mutation of the
returned object. -/
def updateFirst (p : α → Bool) (f : α → α) : List α → List α
  | [] => []
  | x :: xs => if p x then f x :: xs else x :: updateFirst p f xs

/-- `calculateSkillMatch(workerSkills, siteSkills)` (src/server.js:1141):
`if (!siteSkills.length) return 0.5;` then the fraction of `siteSkills`
entries contained in `workerSkills`. -/
def calculateSkillMatch (workerSkills siteSkills : List String) : ℚ :=
  if siteSkills.length = 0 then 0.5
  else ((siteSkills.filter fun skill => workerSkills.contains skill).length : ℚ)
        / (siteSkills.length : ℚ)

/-- The distance sub-score computed inline in `calculateAssignmentScore`
(src/server.js:1133): `Math.max(0, 1 - (distance / 20))`. -/
def distanceScore (distance : ℚ) : ℚ :=
  max 0 (1 - distance / 20)

/-- The availability sub-score computed inline in
`calculateAssignmentScore` (src/server.js:1134-1135):
`length === 0 ? 1 : length <= 2 ? 0.7 : 0.3`. -/
def availabilityScore (activeCount : ℕ) : ℚ :=
  if activeCount = 0 then 1 else if activeCount ≤ 2 then 0.7 else 0.3

/-- `calculateAssignmentScore(worker, workSite)` (src/server.js:1130-1139).
`distance` stands for `calculateDistance(worker.home_coords,
workSite.coords)`, the haversine great-circle distance (a nonnegative
real); the inline `distanceScore` and `availabilityScore` locals are the
named definitions above, and `historicalScore = worker.rating / 5`. -/
def calculateAssignmentScore (worker : Worker) (workSite : WorkSite)
    (distance : ℚ) : ℚ :=
  calculateSkillMatch worker.skills workSite.preferred_skills * 0.4
    + distanceScore distance * 0.3
    + availabilityScore worker.active_assignment_ids.length * 0.2
    + worker.rating / 5 * 0.1

/-- One entry of the `scores` array built by the recommendation route:
`{ worker, score: calculateAssignmentScore(worker, site) }`. -/
structure ScoredWorker where
  worker : Worker
  score : ℚ
deriving DecidableEq, Repr

/-- Insert into a descending-sorted list, after every element whose score
is strictly larger and before the first whose score is not: earlier pool
order wins ties, as in a stable descending sort. -/
def insertByScore (x : ScoredWorker) : List ScoredWorker → List ScoredWorker
  | [] => [x]
  | y :: ys => if x.score < y.score then y :: insertByScore x ys else x :: y :: ys

/-- The `.sort((a, b) => b.score - a.score)` of the recommendation route
(src/server.js:1602): a stable sort, descending by `score`
(`Array.prototype.sort` is stable per ES2019; any stable descending sort
is extensionally this one). -/
def sortByScore : List ScoredWorker → List ScoredWorker
  | [] => []
  | x :: xs => insertByScore x (sortByScore xs)

/-- The `scores` list of `GET /api/ai/recommend/:siteId`
(src/server.js:1599-1602): map the worker pool to scored entries, then
sort descending by score. `dist w` stands for
`calculateDistance(w.home_coords, site.coords)`. -/
def recommendScores (site : WorkSite) (pool : List Worker)
    (dist : Worker → ℚ) : List ScoredWorker :=
  sortByScore (pool.map fun w => ⟨w, calculateAssignmentScore w site (dist w)⟩)

/-- The server's mutable store touched by `POST /api/assign`. -/
structure ServerState where
  workSites : List WorkSite
  workers : List Worker
  assignments : List Assignment
deriving DecidableEq, Repr

/-- Outcome of `POST /api/assign`: either the JSON error
`'Site or worker not found'`, or success with the updated store and the
created assignment. -/
inductive AssignResult where
  | notFound
  | ok (state : ServerState) (assignment : Assignment)
deriving DecidableEq, Repr

/-- `POST /api/assign` (src/server.js:1492-1528): look up site and
worker; if either is missing answer `'Site or worker not found'`;
otherwise set `site.status = 'assigned'`, push `siteId` onto
`worker.active_assignment_ids`, and push a new assignment
`{ id: assignId, workerId, siteId, assignedAt: now, status: 'scheduled' }`.
`assignId` stands for the generated `assign_${uuidv4()}` and `now` for
the clock at the request. -/
def postAssign (st : ServerState) (workerId siteId : String)
    (assignId : String) (now : ℕ) : AssignResult :=
  match st.workSites.find? (fun s => s.id == siteId),
        st.workers.find? (fun w => w.id == workerId) with
  | some _, some _ =>
      let workSites := updateFirst (fun s => s.id == siteId)
        (fun s => { s with status := "assigned" }) st.workSites
      let workers := updateFirst (fun w => w.id == workerId)
        (fun w => { w with
          active_assignment_ids := w.active_assignment_ids ++ [siteId] })
        st.workers
      let assignment : Assignment :=
        ⟨assignId, workerId, siteId, now, "scheduled"⟩
      .ok ⟨workSites, workers, st.assignments ++ [assignment]⟩ assignment
  | _, _ => .notFound

/-- `RealGreenCRM.generateInvoice(customerId, amount, services)`
(src/server.js:746-759): unconditionally build
`{ id: INV-now, customer_id, amount, services, status: 'pending',
created_at: now, due_date: now + 30*24*60*60*1000, payment_method: null }`
and push it onto `this.invoices`; return the new store and the invoice. -/
def generateInvoice (invoices : List Invoice) (customerId : String)
    (amount : ℚ) (services : List String) (now : ℕ) :
    List Invoice × Invoice :=
  let invoice : Invoice :=
    ⟨"INV-" ++ toString now, customerId, amount, services, "pending",
      now, now + 30 * 24 * 60 * 60 * 1000, none⟩
  (invoices ++ [invoice], invoice)

/-- `POST /api/crm/invoice` (src/server.js:1242-1266): reject when the
customer id is unknown (`'Customer not found'`), otherwise call
`generateInvoice` — with no check on `amount`. -/
def postCrmInvoice (customers : List Customer) (invoices : List Invoice)
    (customerId : String) (amount : ℚ) (services : List String)
    (now : ℕ) : Option (List Invoice × Invoice) :=
  match customers.find? (fun c => c.id == customerId) with
  | none => none
  | some _ => some (generateInvoice invoices customerId amount services now)

/-- `RealGreenCRM.createServiceTicket(customerId, serviceType, priority)`
(src/server.js:728-743), projected to the embedded `Ticket` fields: a new
ticket starts with `status: 'open'` and is pushed onto
`this.serviceTickets`. -/
def createServiceTicket (tickets : List Ticket) (customerId : String)
    (ticketId : String) : List Ticket × Ticket :=
  let ticket : Ticket := ⟨ticketId, customerId, "open"⟩
  (tickets ++ [ticket], ticket)

/-- Modelled from the spec: the ticket state machine of §4.4. No code in
src/server.js ever changes a ticket's status — tickets are only created
(`status: 'open'`, src/server.js:733) and read — so the transition table
`open --schedule--> scheduled --start--> in_progress --complete-->
completed`, with `cancel` allowed from `open`, `scheduled` and
`in_progress`, is taken from the spec's words; `none` is the
`InvalidTransition` outcome. -/
def ticketTransition (status event : String) : Option String :=
  match status, event with
  | "open", "schedule" => some "scheduled"
  | "scheduled", "start" => some "in_progress"
  | "in_progress", "complete" => some "completed"
  | "open", "cancel" => some "cancelled"
  | "scheduled", "cancel" => some "cancelled"
  | "in_progress", "cancel" => some "cancelled"
  | _, _ => none

/-- Outcome of the modelled `transitionTicket` operation. -/
inductive TicketResult where
  | notFound
  | invalidTransition
  | ok (tickets : List Ticket) (ticket : Ticket)
deriving DecidableEq, Repr

/-- Modelled from the spec: `transitionTicket(ticketId, event) -> Ticket
| InvalidTransition` (§6), absent from src/server.js. Look the ticket up;
apply the §4.4 state machine; on an illegal transition answer
`invalidTransition` and leave the store untouched, otherwise store and
return the updated ticket. -/
def transitionTicket (tickets : List Ticket) (ticketId event : String) :
    TicketResult :=
  match tickets.find? (fun t => t.id == ticketId) with
  | none => .notFound
  | some t =>
    match ticketTransition t.status event with
    | none => .invalidTransition
    | some s =>
        .ok (updateFirst (fun u => u.id == ticketId)
              (fun u => { u with status := s }) tickets)
           { t with status := s }

/-! ## Sub-score bounds -/

theorem calculateSkillMatch_nonneg (workerSkills siteSkills : List String) :
    0 ≤ calculateSkillMatch workerSkills siteSkills := by
  unfold calculateSkillMatch
  split
  · norm_num
  · positivity

theorem calculateSkillMatch_le_one (workerSkills siteSkills : List String) :
    calculateSkillMatch workerSkills siteSkills ≤ 1 := by
  unfold calculateSkillMatch
  split
  · norm_num
  · rename_i h
    rw [div_le_one (by exact_mod_cast Nat.pos_of_ne_zero h)]
    exact_mod_cast List.length_filter_le _ _

theorem distanceScore_nonneg (distance : ℚ) : 0 ≤ distanceScore distance :=
  le_max_left 0 _

theorem distanceScore_le_one (distance : ℚ) (h : 0 ≤ distance) :
    distanceScore distance ≤ 1 := by
  unfold distanceScore
  have h20 : distance / 20 ≥ 0 := by positivity
  exact max_le (by norm_num) (by linarith)

theorem availabilityScore_mem (n : ℕ) :
    availabilityScore n = 1 ∨ availabilityScore n = 0.7 ∨
      availabilityScore n = 0.3 := by
  unfold availabilityScore
  split
  · exact Or.inl rfl
  · split
    · exact Or.inr (Or.inl rfl)
    · exact Or.inr (Or.inr rfl)

theorem availabilityScore_nonneg (n : ℕ) : 0 ≤ availabilityScore n := by
  rcases availabilityScore_mem n with h | h | h <;> rw [h] <;> norm_num

theorem availabilityScore_le_one (n : ℕ) : availabilityScore n ≤ 1 := by
  rcases availabilityScore_mem n with h | h | h <;> rw [h] <;> norm_num

/-! ## Claim theorems: scoring -/

/-- C6: for a site with at least one preferred skill, `skill_match` is
the exact fraction of the site's preferred-skill tags present in the
worker's skill set and lies in `[0, 1]`; for zero preferred skills it is
exactly `0.5`; and the worker `{Mowing, Edging}` against the site
`{Mowing, Edging, Trimming}` scores `2/3`. -/
theorem skillMatch_fraction_spec :
    (∀ workerSkills siteSkills : List String, siteSkills ≠ [] →
        calculateSkillMatch workerSkills siteSkills =
          ((siteSkills.filter fun skill =>
              workerSkills.contains skill).length : ℚ) /
            (siteSkills.length : ℚ) ∧
        0 ≤ calculateSkillMatch workerSkills siteSkills ∧
        calculateSkillMatch workerSkills siteSkills ≤ 1) ∧
    (∀ workerSkills : List String,
        calculateSkillMatch workerSkills [] = 0.5) ∧
    calculateSkillMatch ["Mowing", "Edging"]
      ["Mowing", "Edging", "Trimming"] = 2 / 3 := by
  refine ⟨fun ws ss hss => ⟨?_, calculateSkillMatch_nonneg ws ss,
    calculateSkillMatch_le_one ws ss⟩, fun ws => rfl, by
      simp [calculateSkillMatch]⟩
  unfold calculateSkillMatch
  rw [if_neg (by simpa using hss)]

theorem skillMatch_fraction_spec_witness :
    (["Mowing", "Fertilizing"] : List String) ≠ [] ∧
    calculateSkillMatch ["Mowing", "Edging"] ["Mowing", "Fertilizing"] =
      ((["Mowing", "Fertilizing"].filter fun skill =>
          (["Mowing", "Edging"] : List String).contains skill).length : ℚ) / 2 ∧
    0 ≤ calculateSkillMatch ["Mowing", "Edging"] ["Mowing", "Fertilizing"] ∧
    calculateSkillMatch ["Mowing", "Edging"] ["Mowing", "Fertilizing"] ≤ 1 :=
  ⟨by decide, by
    simpa using
      skillMatch_fraction_spec.1 ["Mowing", "Edging"]
        ["Mowing", "Fertilizing"] (by decide)⟩

/-- C7: the distance sub-score is `max(0, 1 - d/20)`, monotonically
non-increasing in the distance, equal to `1` at `0`, clamped to exactly
`0` for every distance `≥ 20` (in particular `25` km scores `0`), and
never negative. -/
theorem distanceScore_decay_spec :
    (∀ d : ℚ, distanceScore d = max 0 (1 - d / 20)) ∧
    (∀ d₁ d₂ : ℚ, d₁ ≤ d₂ → distanceScore d₂ ≤ distanceScore d₁) ∧
    distanceScore 0 = 1 ∧
    (∀ d : ℚ, 20 ≤ d → distanceScore d = 0) ∧
    (∀ d : ℚ, 0 ≤ distanceScore d) ∧
    distanceScore 25 = 0 := by
  refine ⟨fun d => rfl, fun d₁ d₂ h => ?_, by norm_num [distanceScore],
    fun d h => ?_, distanceScore_nonneg, by norm_num [distanceScore]⟩
  · exact max_le_max le_rfl (by linarith)
  · exact max_eq_left (by linarith)

theorem distanceScore_decay_spec_witness :
    (3 : ℚ) ≤ 5 ∧ distanceScore 5 ≤ distanceScore 3 ∧
    (20 : ℚ) ≤ 21 ∧ distanceScore 21 = 0 :=
  ⟨by norm_num, distanceScore_decay_spec.2.1 3 5 (by norm_num),
   by norm_num, distanceScore_decay_spec.2.2.2.1 21 (by norm_num)⟩

/-- C5: for every worker with rating in `[0, 5]` and every site and
nonnegative distance, the composite score equals
`0.4*skill_match + 0.3*distance_score + 0.2*availability_score +
0.1*historical_score`, where the availability tier is `1` for `0` active
assignments, `0.7` for `1`-`2`, `0.3` for `3` or more, and
`historical_score = rating / 5`; the composite always lies in `[0, 1]`. -/
theorem assignmentScore_formula_range :
    ∀ (worker : Worker) (workSite : WorkSite) (distance : ℚ),
      0 ≤ distance → 0 ≤ worker.rating → worker.rating ≤ 5 →
      (calculateAssignmentScore worker workSite distance =
          0.4 * calculateSkillMatch worker.skills workSite.preferred_skills
        + 0.3 * distanceScore distance
        + 0.2 * availabilityScore worker.active_assignment_ids.length
        + 0.1 * (worker.rating / 5)) ∧
      availabilityScore 0 = 1 ∧
      (∀ n : ℕ, 1 ≤ n → n ≤ 2 → availabilityScore n = 0.7) ∧
      (∀ n : ℕ, 3 ≤ n → availabilityScore n = 0.3) ∧
      0 ≤ calculateAssignmentScore worker workSite distance ∧
      calculateAssignmentScore worker workSite distance ≤ 1 := by
  intro worker workSite distance hd hr0 hr5
  have hsm0 := calculateSkillMatch_nonneg worker.skills workSite.preferred_skills
  have hsm1 := calculateSkillMatch_le_one worker.skills workSite.preferred_skills
  have hds0 := distanceScore_nonneg distance
  have hds1 := distanceScore_le_one distance hd
  have hav0 := availabilityScore_nonneg worker.active_assignment_ids.length
  have hav1 := availabilityScore_le_one worker.active_assignment_ids.length
  refine ⟨by unfold calculateAssignmentScore; ring, rfl, ?_, ?_, ?_, ?_⟩
  · intro n h1 h2
    unfold availabilityScore
    rw [if_neg (by omega), if_pos h2]
  · intro n h3
    unfold availabilityScore
    rw [if_neg (by omega), if_neg (by omega)]
  · unfold calculateAssignmentScore
    have : 0 ≤ worker.rating / 5 := by positivity
    nlinarith
  · unfold calculateAssignmentScore
    have h5 : worker.rating / 5 ≤ 1 := by linarith [div_le_one_of_le₀ hr5 (by norm_num : (0:ℚ) ≤ 5)]
    nlinarith

theorem assignmentScore_formula_range_witness :
    (0 : ℚ) ≤ 10 ∧ (0 : ℚ) ≤ 4.8 ∧ (4.8 : ℚ) ≤ 5 ∧
    0 ≤ calculateAssignmentScore
        ⟨"worker_1", ["Mowing", "Edging", "Trimming", "Fertilizing"],
          4.8, []⟩
        ⟨"site_1", "open", ["Mowing", "Edging", "Trimming"]⟩ 10 ∧
    calculateAssignmentScore
        ⟨"worker_1", ["Mowing", "Edging", "Trimming", "Fertilizing"],
          4.8, []⟩
        ⟨"site_1", "open", ["Mowing", "Edging", "Trimming"]⟩ 10 ≤ 1 := by
  have h := assignmentScore_formula_range
    ⟨"worker_1", ["Mowing", "Edging", "Trimming", "Fertilizing"], 4.8, []⟩
    ⟨"site_1", "open", ["Mowing", "Edging", "Trimming"]⟩ 10
    (by norm_num) (by norm_num) (by norm_num)
  exact ⟨by norm_num, by norm_num, by norm_num, h.2.2.2.2.1, h.2.2.2.2.2⟩

/-! ## Sorting lemmas for the recommendation route -/

theorem insertByScore_perm (x : ScoredWorker) (l : List ScoredWorker) :
    List.Perm (insertByScore x l) (x :: l) := by
  induction l with
  | nil => rfl
  | cons y ys ih =>
    unfold insertByScore
    split
    · exact ((ih.cons y).trans (List.Perm.swap x y ys))
    · rfl

theorem sortByScore_perm (l : List ScoredWorker) :
    List.Perm (sortByScore l) l := by
  induction l with
  | nil => rfl
  | cons x xs ih =>
    exact (insertByScore_perm x (sortByScore xs)).trans (ih.cons x)

theorem mem_insertByScore {z x : ScoredWorker} {l : List ScoredWorker} :
    z ∈ insertByScore x l ↔ z = x ∨ z ∈ l := by
  rw [(insertByScore_perm x l).mem_iff, List.mem_cons]

theorem insertByScore_sorted (x : ScoredWorker) {l : List ScoredWorker}
    (h : List.Sorted (fun a b : ScoredWorker => b.score ≤ a.score) l) :
    List.Sorted (fun a b : ScoredWorker => b.score ≤ a.score)
      (insertByScore x l) := by
  induction l with
  | nil => simp [insertByScore]
  | cons y ys ih =>
    rw [List.sorted_cons] at h
    unfold insertByScore
    split
    · rename_i hlt
      rw [List.sorted_cons]
      refine ⟨fun z hz => ?_, ih h.2⟩
      rcases mem_insertByScore.mp hz with rfl | hz
      · exact le_of_lt hlt
      · exact h.1 z hz
    · rename_i hge
      rw [List.sorted_cons]
      exact ⟨fun z hz => by
        rcases List.mem_cons.mp hz with rfl | hz
        · exact le_of_not_lt hge
        · exact le_trans (h.1 z hz) (le_of_not_lt hge),
        List.sorted_cons.mpr h⟩

theorem sortByScore_sorted (l : List ScoredWorker) :
    List.Sorted (fun a b : ScoredWorker => b.score ≤ a.score)
      (sortByScore l) := by
  induction l with
  | nil => simp [sortByScore]
  | cons x xs ih => exact insertByScore_sorted x ih

theorem filter_insertByScore (x : ScoredWorker) (l : List ScoredWorker)
    (s : ℚ) :
    (insertByScore x l).filter (fun a => decide (a.score = s)) =
      if x.score = s then
        x :: l.filter (fun a => decide (a.score = s))
      else l.filter (fun a => decide (a.score = s)) := by
  induction l with
  | nil =>
    by_cases hx : x.score = s <;>
      simp [insertByScore, List.filter_cons, hx]
  | cons y ys ih =>
    unfold insertByScore
    split
    · rename_i hlt
      by_cases hx : x.score = s
      · have hy : ¬ y.score = s := by
          subst hx
          exact ne_of_gt hlt
        simp [List.filter_cons, hy, ih, hx]
      · simp [List.filter_cons, ih, hx]
    · by_cases hx : x.score = s <;> simp [List.filter_cons, hx]

theorem filter_sortByScore (l : List ScoredWorker) (s : ℚ) :
    (sortByScore l).filter (fun a => decide (a.score = s)) =
      l.filter (fun a => decide (a.score = s)) := by
  induction l with
  | nil => rfl
  | cons x xs ih =>
    show (insertByScore x (sortByScore xs)).filter _ = _
    rw [filter_insertByScore]
    by_cases hx : x.score = s
    · rw [if_pos hx, ih]
      simp [List.filter_cons, hx]
    · rw [if_neg hx, ih]
      simp [List.filter_cons, hx]

/-- C8: the recommendation route returns the scored worker pool as a
permutation sorted in descending score order, and the sort is stable:
for every score value, the entries carrying that score appear in exactly
their input (pool) order. -/
theorem recommendScores_sorted_stable :
    ∀ (site : WorkSite) (pool : List Worker) (dist : Worker → ℚ),
      List.Perm (recommendScores site pool dist)
        (pool.map fun w => ⟨w, calculateAssignmentScore w site (dist w)⟩) ∧
      List.Sorted (fun a b : ScoredWorker => b.score ≤ a.score)
        (recommendScores site pool dist) ∧
      ∀ s : ℚ,
        (recommendScores site pool dist).filter
            (fun a => decide (a.score = s)) =
          (pool.map fun w =>
              (⟨w, calculateAssignmentScore w site (dist w)⟩ :
                ScoredWorker)).filter
            (fun a => decide (a.score = s)) := by
  intro site pool dist
  exact ⟨sortByScore_perm _, sortByScore_sorted _,
    fun s => filter_sortByScore _ s⟩

/-! ## Concrete store fragments used to exercise the operations -/

/-- A worker shaped like the seed `workers[0]` (projected fields). -/
def demoWorker : Worker := ⟨"worker_1", ["Mowing", "Edging"], 4, []⟩

/-- An `open` site shaped like the seed `workSites[0]` (projected). -/
def demoOpenSite : WorkSite := ⟨"site_1", "open", ["Mowing"]⟩

/-- A store with one open site, one idle worker, no assignments. -/
def demoAssignState : ServerState := ⟨[demoOpenSite], [demoWorker], []⟩

/-- The assignment `POST /api/assign` builds from `demoAssignState`. -/
def demoAssignment : Assignment :=
  ⟨"assign_1", "worker_1", "site_1", 5, "scheduled"⟩

/-- The store after assigning `worker_1` to `site_1` in
`demoAssignState`. -/
def demoAssignState2 : ServerState :=
  ⟨[⟨"site_1", "assigned", ["Mowing"]⟩],
   [⟨"worker_1", ["Mowing", "Edging"], 4, ["site_1"]⟩],
   [demoAssignment]⟩

/-- `demoOpenSite` with status already `'assigned'`. -/
def demoAssignedSite : WorkSite := ⟨"site_1", "assigned", ["Mowing"]⟩

/-- A store whose only site is already `'assigned'`. -/
def demoConflictState : ServerState := ⟨[demoAssignedSite], [demoWorker], []⟩

/-! ## Claim theorems: assignment creation -/

/-- C10: a successful `POST /api/assign` creates an assignment whose
initial status is `'scheduled'`, carrying the request's worker id, site
id, the generated id and the creation timestamp, appended to the
assignment store. -/
theorem postAssign_creates_scheduled :
    ∀ (st : ServerState) (workerId siteId assignId : String) (now : ℕ)
      (st2 : ServerState) (a : Assignment),
      postAssign st workerId siteId assignId now = .ok st2 a →
      a.status = "scheduled" ∧ a.workerId = workerId ∧ a.siteId = siteId ∧
        a.assignedAt = now ∧ a.id = assignId ∧
        st2.assignments = st.assignments ++ [a] := by
  intro st workerId siteId assignId now st2 a h
  unfold postAssign at h
  split at h
  · rw [AssignResult.ok.injEq] at h
    obtain ⟨hst, ha⟩ := h
    subst hst
    subst ha
    exact ⟨rfl, rfl, rfl, rfl, rfl, rfl⟩
  · exact absurd h (by simp)

theorem postAssign_creates_scheduled_witness :
    postAssign demoAssignState "worker_1" "site_1" "assign_1" 5 =
      .ok demoAssignState2 demoAssignment ∧
    demoAssignment.status = "scheduled" ∧
    demoAssignment.workerId = "worker_1" ∧
    demoAssignment.siteId = "site_1" ∧
    demoAssignment.assignedAt = 5 ∧
    demoAssignment.id = "assign_1" ∧
    demoAssignState2.assignments = demoAssignState.assignments ++ [demoAssignment] :=
  ⟨by decide,
   postAssign_creates_scheduled demoAssignState "worker_1" "site_1"
     "assign_1" 5 demoAssignState2 demoAssignment (by decide)⟩

/-- C1 (failing input): `POST /api/assign` performs no conflict check.
With `site_1` already `'assigned'`, assigning `worker_1` to it succeeds
anyway: no `ConflictingAssignment` error exists in the code, the site is
(re-)marked `'assigned'`, the worker's `active_assignment_ids` grows by
`'site_1'`, and a fresh `'scheduled'` assignment is appended — the claim
requires the operation to fail and both records to stay unchanged. -/
theorem assign_no_conflict_check :
    demoAssignedSite.status = "assigned" ∧
    postAssign demoConflictState "worker_1" "site_1" "assign_2" 7 =
      .ok ⟨[⟨"site_1", "assigned", ["Mowing"]⟩],
           [⟨"worker_1", ["Mowing", "Edging"], 4, ["site_1"]⟩],
           [⟨"assign_2", "worker_1", "site_1", 7, "scheduled"⟩]⟩
        ⟨"assign_2", "worker_1", "site_1", 7, "scheduled"⟩ ∧
    (match postAssign demoConflictState "worker_1" "site_1" "assign_2" 7 with
      | .notFound => False
      | .ok st2 _ => st2.workers ≠ demoConflictState.workers ∧
          st2.assignments ≠ demoConflictState.assignments) := by
  refine ⟨rfl, by decide, ?_⟩
  constructor <;> decide

/-- C4 (failing input): after the single reachable step
`postAssign demoAssignState "worker_1" "site_1" "assign_1" 5`, the
worker's `active_assignment_ids` holds `'site_1'` — the *site* id the
route pushes — which is the id of no assignment at all, while the newly
created `'scheduled'` assignment `'assign_1'` is in no worker's set:
both directions of the claimed if-and-only-if fail. -/
theorem active_ids_are_site_ids_not_assignment_ids :
    postAssign demoAssignState "worker_1" "site_1" "assign_1" 5 =
      .ok demoAssignState2 demoAssignment ∧
    (∃ w ∈ demoAssignState2.workers, ∃ i ∈ w.active_assignment_ids,
      ∀ a ∈ demoAssignState2.assignments,
        ¬(a.id = i ∧ (a.status = "scheduled" ∨ a.status = "active"))) ∧
    (∃ a ∈ demoAssignState2.assignments,
      (a.status = "scheduled" ∨ a.status = "active") ∧
      ∀ w ∈ demoAssignState2.workers, a.id ∉ w.active_assignment_ids) := by
  refine ⟨by decide, ?_, ?_⟩ <;> decide

/-! ## Claim theorems: invoices -/

/-- C2 (failing input): neither `RealGreenCRM.generateInvoice` nor
`POST /api/crm/invoice` checks the amount. For the existing customer
`cust_1` and amount `-50`, the route succeeds and a `'pending'` invoice
with the negative amount is appended to the invoice store — no
`InvalidAmount` rejection exists in the code. -/
theorem invoice_accepts_negative_amount :
    postCrmInvoice [⟨"cust_1"⟩] [] "cust_1" (-50) ["Mowing"] 0 =
      some ([⟨"INV-0", "cust_1", -50, ["Mowing"], "pending", 0,
              2592000000, none⟩],
            ⟨"INV-0", "cust_1", -50, ["Mowing"], "pending", 0,
              2592000000, none⟩) ∧
    (-50 : ℚ) < 0 := by
  refine ⟨?_, by norm_num⟩
  rfl

/-- C9: every invoice built by `RealGreenCRM.generateInvoice` has
`due_date` exactly `30 * 24 * 60 * 60 * 1000` milliseconds (30 days)
after its `created_at` timestamp, for every creation time, and is
appended to the invoice store. -/
theorem invoice_due_thirty_days :
    ∀ (invoices : List Invoice) (customerId : String) (amount : ℚ)
      (services : List String) (now : ℕ),
      ((generateInvoice invoices customerId amount services now).2).due_date =
        ((generateInvoice invoices customerId amount services now).2).created_at
          + 30 * 24 * 60 * 60 * 1000 ∧
      ((generateInvoice invoices customerId amount services now).2).created_at
          = now ∧
      (generateInvoice invoices customerId amount services now).1 =
        invoices ++ [(generateInvoice invoices customerId amount services now).2] :=
  fun _ _ _ _ _ => ⟨rfl, rfl, rfl⟩

/-! ## Claim theorems: ticket lifecycle (spec-modelled) -/

theorem ticketTransition_completed (e : String) :
    ticketTransition "completed" e = none := rfl

theorem ticketTransition_cancelled (e : String) :
    ticketTransition "cancelled" e = none := rfl

/-- C3: in the modelled ticket lifecycle, any event applied to a ticket
in a terminal state (`'completed'` or `'cancelled'`) yields the
`InvalidTransition` outcome (leaving the store untouched), and a
transition succeeds only along the state machine
`open → scheduled → in_progress → completed`, with `cancel` allowed
exactly from `open`, `scheduled` and `in_progress`. -/
theorem ticket_terminal_invalid_and_machine :
    (∀ (tickets : List Ticket) (ticketId event : String) (t : Ticket),
        tickets.find? (fun u => u.id == ticketId) = some t →
        (t.status = "completed" ∨ t.status = "cancelled") →
        transitionTicket tickets ticketId event = .invalidTransition) ∧
    (∀ s e s2 : String, ticketTransition s e = some s2 →
        (s = "open" ∧ e = "schedule" ∧ s2 = "scheduled") ∨
        (s = "scheduled" ∧ e = "start" ∧ s2 = "in_progress") ∨
        (s = "in_progress" ∧ e = "complete" ∧ s2 = "completed") ∨
        (s = "open" ∧ e = "cancel" ∧ s2 = "cancelled") ∨
        (s = "scheduled" ∧ e = "cancel" ∧ s2 = "cancelled") ∨
        (s = "in_progress" ∧ e = "cancel" ∧ s2 = "cancelled")) := by
  constructor
  · intro tickets ticketId event t hfind hterm
    unfold transitionTicket
    rw [hfind]
    rcases hterm with h | h <;>
      simp [h, ticketTransition_completed, ticketTransition_cancelled]
  · intro s e s2 h
    unfold ticketTransition at h
    split at h <;> simp_all

theorem ticket_terminal_invalid_and_machine_witness :
    List.find? (fun u => u.id == "ticket_1")
        [(⟨"ticket_1", "cust_1", "completed"⟩ : Ticket)] =
      some ⟨"ticket_1", "cust_1", "completed"⟩ ∧
    ((⟨"ticket_1", "cust_1", "completed"⟩ : Ticket).status = "completed" ∨
      (⟨"ticket_1", "cust_1", "completed"⟩ : Ticket).status = "cancelled") ∧
    transitionTicket [⟨"ticket_1", "cust_1", "completed"⟩] "ticket_1"
        "start" = .invalidTransition ∧
    ticketTransition "open" "cancel" = some "cancelled" ∧
    (("open" = "open" ∧ "cancel" = "schedule" ∧
        "cancelled" = "scheduled") ∨
      ("open" = "scheduled" ∧ "cancel" = "start" ∧
        "cancelled" = "in_progress") ∨
      ("open" = "in_progress" ∧ "cancel" = "complete" ∧
        "cancelled" = "completed") ∨
      ("open" = "open" ∧ "cancel" = "cancel" ∧
        "cancelled" = "cancelled") ∨
      ("open" = "scheduled" ∧ "cancel" = "cancel" ∧
        "cancelled" = "cancelled") ∨
      ("open" = "in_progress" ∧ "cancel" = "cancel" ∧
        "cancelled" = "cancelled")) :=
  ⟨rfl, Or.inl rfl,
   ticket_terminal_invalid_and_machine.1
     [⟨"ticket_1", "cust_1", "completed"⟩] "ticket_1" "start"
     ⟨"ticket_1", "cust_1", "completed"⟩ rfl (Or.inl rfl),
   rfl,
   ticket_terminal_invalid_and_machine.2 "open" "cancel" "cancelled" rfl⟩
